import Mathlib

/-!
Verification of the supermarket inventory core (`src/src/lib.rs`).

The Rust code keeps a `SupermarketManager` with a `HashMap<u32, InventoryItem>`
of items keyed by id and a `Vec<String>` change log.  We embed the state
shallowly: the hash map becomes an association list (`HashMap` guarantees at
most one entry per key; we carry that as the `keysNodup` invariant), the log
becomes a `List String`, and the wall-clock reading done by
`get_current_time()` becomes an explicit `now : String` argument to every
mutating operation (the code only ever splices the formatted time into the
log text).

Field types: `id`/`quantity` are `u32` and `expiration_date` is `u64` in the
source; no arithmetic is ever performed on them, they are only stored,
compared and printed, so `Nat` is a faithful model.  `price : f64` is only
stored and copied bit-for-bit, never operated on, so it is modelled by its
64-bit pattern as a `Nat`.
-/

set_option autoImplicit false

/-- One inventory record (`struct InventoryItem`). -/
structure InventoryItem where
  id : Nat
  name : String
  quantity : Nat
  price : Nat
  expiration_date : Nat
deriving DecidableEq

/-- Model of `HashMap<u32, InventoryItem>`: an association list of
key/record pairs. -/
abbrev ItemMap := List (Nat × InventoryItem)

/-- Model of `HashMap::get`: the record at the first entry whose key
matches, if any. -/
def hmGet (m : ItemMap) (id : Nat) : Option InventoryItem :=
  match m with
  | [] => none
  | (k, v) :: rest => if k = id then some v else hmGet rest id

/-- Model of `HashMap::insert`: overwrite the entry at the key if present,
otherwise add a new entry. -/
def hmInsert (m : ItemMap) (id : Nat) (v : InventoryItem) : ItemMap :=
  match m with
  | [] => [(id, v)]
  | (k, w) :: rest => if k = id then (id, v) :: rest else (k, w) :: hmInsert rest id v

/-- Model of mutating through `HashMap::get_mut`: apply `f` to the record
stored at the key, if present. -/
def hmModify (m : ItemMap) (id : Nat) (f : InventoryItem → InventoryItem) : ItemMap :=
  match m with
  | [] => []
  | (k, w) :: rest => if k = id then (k, f w) :: rest else (k, w) :: hmModify rest id f

/-- Model of `HashMap::remove`: drop the entry at the key, if present. -/
def hmRemove (m : ItemMap) (id : Nat) : ItemMap :=
  match m with
  | [] => []
  | (k, w) :: rest => if k = id then rest else (k, w) :: hmRemove rest id

/-- The `HashMap` representation invariant: at most one entry per key. -/
def keysNodup (m : ItemMap) : Prop := (m.map Prod.fst).Nodup

instance (m : ItemMap) : Decidable (keysNodup m) := by
  unfold keysNodup; infer_instance

/-- The store (`struct SupermarketManager`): the item map and the change log. -/
structure SupermarketManager where
  items : ItemMap
  logs : List String
deriving DecidableEq

namespace SupermarketManager

/-- `SupermarketManager::new`: empty inventory and empty log. -/
def new : SupermarketManager := { items := [], logs := [] }

/-- `SupermarketManager::add_item`.  Inserts the item at its own id and
appends the addition log line; `now` stands for
`get_current_time()`. -/
def add_item (s : SupermarketManager) (item : InventoryItem) (now : String) :
    SupermarketManager :=
  { items := hmInsert s.items item.id item,
    logs := s.logs ++ ["Item " ++ toString item.id ++ " added at " ++ now] }

/-- `SupermarketManager::get_item`: look the id up in the map. -/
def get_item (s : SupermarketManager) (id : Nat) : Option InventoryItem :=
  hmGet s.items id

/-- `SupermarketManager::update_item_quantity`.  If the id is present,
overwrite that record's `quantity` field and append the update log line;
otherwise do nothing. -/
def update_item_quantity (s : SupermarketManager) (id quantity : Nat)
    (now : String) : SupermarketManager :=
  if (hmGet s.items id).isSome then
    { items := hmModify s.items id (fun it => { it with quantity := quantity }),
      logs := s.logs ++
        ["Item " ++ toString id ++ " quantity updated to " ++ toString quantity
          ++ " at " ++ now] }
  else s

/-- `SupermarketManager::remove_item`.  If the id is present, drop it from
the map and append the removal log line; otherwise do nothing. -/
def remove_item (s : SupermarketManager) (id : Nat) (now : String) :
    SupermarketManager :=
  if (hmGet s.items id).isSome then
    { items := hmRemove s.items id,
      logs := s.logs ++ ["Item " ++ toString id ++ " removed at " ++ now] }
  else s

/-- `SupermarketManager::get_logs`: return the log contents. -/
def get_logs (s : SupermarketManager) : List String := s.logs

/-- State-passing embedding of the `&self` method `get_item`: the result
paired with the state the call leaves behind. -/
def get_item_call (s : SupermarketManager) (id : Nat) :
    Option InventoryItem × SupermarketManager := (hmGet s.items id, s)

/-- State-passing embedding of the `&self` method `get_logs`. -/
def get_logs_call (s : SupermarketManager) :
    List String × SupermarketManager := (s.logs, s)

end SupermarketManager

open SupermarketManager

/-- A store is well formed when its item map satisfies the `HashMap`
invariant. -/
def ItemsWF (s : SupermarketManager) : Prop := keysNodup s.items

instance (s : SupermarketManager) : Decidable (ItemsWF s) := by
  unfold ItemsWF; infer_instance

/-! ### Association-list lemmas -/

theorem hmGet_insert_self (m : ItemMap) (id : Nat) (v : InventoryItem) :
    hmGet (hmInsert m id v) id = some v := by
  induction m with
  | nil => simp [hmInsert, hmGet]
  | cons e rest ih =>
    obtain ⟨k, w⟩ := e
    by_cases h : k = id <;> simp [hmInsert, hmGet, h, ih]

theorem hmGet_insert_ne (m : ItemMap) (id j : Nat) (v : InventoryItem)
    (h : id ≠ j) : hmGet (hmInsert m id v) j = hmGet m j := by
  induction m with
  | nil => simp [hmInsert, hmGet, h]
  | cons e rest ih =>
    obtain ⟨k, w⟩ := e
    by_cases hk : k = id
    · subst hk; simp [hmInsert, hmGet, h, ih]
    · simp [hmInsert, hmGet, hk, ih]

theorem hmGet_modify_self (m : ItemMap) (id : Nat)
    (f : InventoryItem → InventoryItem) (v : InventoryItem)
    (h : hmGet m id = some v) :
    hmGet (hmModify m id f) id = some (f v) := by
  induction m with
  | nil => simp [hmGet] at h
  | cons e rest ih =>
    obtain ⟨k, w⟩ := e
    by_cases hk : k = id
    · subst hk
      simp [hmGet] at h
      simp [hmModify, hmGet, h]
    · simp [hmGet, hk] at h
      simp [hmModify, hmGet, hk, ih h]

theorem hmGet_modify_ne (m : ItemMap) (id j : Nat)
    (f : InventoryItem → InventoryItem) (h : id ≠ j) :
    hmGet (hmModify m id f) j = hmGet m j := by
  induction m with
  | nil => simp [hmModify]
  | cons e rest ih =>
    obtain ⟨k, w⟩ := e
    by_cases hk : k = id
    · subst hk; simp [hmModify, hmGet, h, ih]
    · simp [hmModify, hmGet, hk, ih]

theorem hmGet_remove_ne (m : ItemMap) (id j : Nat) (h : id ≠ j) :
    hmGet (hmRemove m id) j = hmGet m j := by
  induction m with
  | nil => simp [hmRemove]
  | cons e rest ih =>
    obtain ⟨k, w⟩ := e
    by_cases hk : k = id
    · subst hk; simp [hmRemove, hmGet, h, ih]
    · simp [hmRemove, hmGet, hk, ih]

theorem hmGet_eq_none_of_key_absent (m : ItemMap) (id : Nat)
    (h : ∀ e ∈ m, e.1 ≠ id) : hmGet m id = none := by
  induction m with
  | nil => rfl
  | cons e rest ih =>
    obtain ⟨k, w⟩ := e
    have hk : k ≠ id := h (k, w) (List.mem_cons_self _ _)
    simp [hmGet, hk]
    exact ih (fun e he => h e (List.mem_cons_of_mem _ he))

theorem hmGet_remove_self (m : ItemMap) (id : Nat) (h : keysNodup m) :
    hmGet (hmRemove m id) id = none := by
  induction m with
  | nil => rfl
  | cons e rest ih =>
    obtain ⟨k, w⟩ := e
    unfold keysNodup at h
    simp [List.nodup_cons] at h
    by_cases hk : k = id
    · subst hk
      simp [hmRemove]
      refine hmGet_eq_none_of_key_absent rest k (fun e he heq => h.1 e.2 ?_)
      have he' : (e.1, e.2) ∈ rest := by simpa using he
      exact heq ▸ he'
    · simp [hmRemove, hmGet, hk]
      exact ih h.2

theorem keys_hmInsert (m : ItemMap) (id : Nat) (v : InventoryItem) :
    (hmInsert m id v).map Prod.fst =
      if id ∈ m.map Prod.fst then m.map Prod.fst else m.map Prod.fst ++ [id] := by
  induction m with
  | nil => simp [hmInsert]
  | cons e rest ih =>
    obtain ⟨k, w⟩ := e
    by_cases hk : k = id
    · subst hk; simp [hmInsert]
    · have hk' : ¬id = k := fun h => hk h.symm
      by_cases hmem : id ∈ rest.map Prod.fst <;>
        simp [hmInsert, hk, ih, hk', hmem]

theorem keysNodup_hmInsert (m : ItemMap) (id : Nat) (v : InventoryItem)
    (h : keysNodup m) : keysNodup (hmInsert m id v) := by
  unfold keysNodup at h ⊢
  rw [keys_hmInsert]
  by_cases hmem : id ∈ m.map Prod.fst
  · simpa [hmem] using h
  · simpa [hmem, List.nodup_append] using And.intro h hmem

/-! ### Sample data used by the concrete witnesses -/

/-- A sample record at id 1. -/
def mItem : InventoryItem :=
  { id := 1, name := "Milk", quantity := 10, price := 25, expiration_date := 100 }

/-- A second sample record that reuses id 1 with every other field different. -/
def bItem : InventoryItem :=
  { id := 1, name := "Bread", quantity := 5, price := 30, expiration_date := 200 }

/-- A sample store holding `mItem`. -/
def s_milk : SupermarketManager := add_item SupermarketManager.new mItem "T1"

/-! ### Claims -/

/-- C1: after `add_item r` the lookup `get_item r.id` returns exactly `r`
(all five fields), and `get_item` on an id with no record returns the
absent result. -/
theorem claim_C1 (s : SupermarketManager) (r : InventoryItem) (now : String)
    (i : Nat) (h : ∀ e ∈ s.items, e.1 ≠ i) :
    get_item (add_item s r now) r.id = some r ∧ get_item s i = none := by
  constructor
  · show hmGet (hmInsert s.items r.id r) r.id = some r
    exact hmGet_insert_self s.items r.id r
  · exact hmGet_eq_none_of_key_absent s.items i h

/-- Witness for C1 at a concrete store and record. -/
theorem claim_C1_witness :
    (∀ e ∈ SupermarketManager.new.items, e.1 ≠ 2) ∧
      (get_item (add_item SupermarketManager.new mItem "T") mItem.id = some mItem ∧
        get_item SupermarketManager.new 2 = none) :=
  ⟨by decide, claim_C1 SupermarketManager.new mItem "T" 2 (by decide)⟩

/-- C2: in a well-formed store at most one entry exists per id, and adding a
record whose id is already present makes `get_item` return exactly the new
record — every field replaced, nothing merged. -/
theorem claim_C2 (s : SupermarketManager) (it : InventoryItem) (now : String)
    (h : ItemsWF s) :
    (∀ k, List.count k ((add_item s it now).items.map Prod.fst) ≤ 1) ∧
      get_item (add_item s it now) it.id = some it := by
  constructor
  · intro k
    have hwf : keysNodup (hmInsert s.items it.id it) :=
      keysNodup_hmInsert s.items it.id it h
    exact List.nodup_iff_count_le_one.mp hwf k
  · show hmGet (hmInsert s.items it.id it) it.id = some it
    exact hmGet_insert_self s.items it.id it

/-- Witness for C2: overwrite id 1 in a store that already holds id 1. -/
theorem claim_C2_witness :
    ItemsWF s_milk ∧
      ((∀ k, List.count k ((add_item s_milk bItem "T2").items.map Prod.fst) ≤ 1) ∧
        get_item (add_item s_milk bItem "T2") bItem.id = some bItem) :=
  ⟨by decide, claim_C2 s_milk bItem "T2" (by decide)⟩

/-- C3: updating the quantity of an id that has no record is a silent
no-op: the whole state (item map and log alike) is unchanged. -/
theorem claim_C3 (s : SupermarketManager) (i q : Nat) (now : String)
    (h : ∀ e ∈ s.items, e.1 ≠ i) :
    update_item_quantity s i q now = s ∧
      get_logs (update_item_quantity s i q now) = get_logs s := by
  have hg : hmGet s.items i = none := hmGet_eq_none_of_key_absent s.items i h
  constructor
  · simp [update_item_quantity, hg]
  · simp [update_item_quantity, hg]

/-- Witness for C3: update id 999 in a store that only holds id 1. -/
theorem claim_C3_witness :
    (∀ e ∈ s_milk.items, e.1 ≠ 999) ∧
      (update_item_quantity s_milk 999 5 "T2" = s_milk ∧
        get_logs (update_item_quantity s_milk 999 5 "T2") = get_logs s_milk) :=
  ⟨by decide, claim_C3 s_milk 999 5 "T2" (by decide)⟩

/-- C4: after adding a record and then removing its id, the lookup is
absent, and a second removal of the same id is a no-op leaving state and
log untouched. -/
theorem claim_C4 (s : SupermarketManager) (it : InventoryItem)
    (t1 t2 t3 : String) (h : ItemsWF s) :
    get_item (remove_item (add_item s it t1) it.id t2) it.id = none ∧
      remove_item (remove_item (add_item s it t1) it.id t2) it.id t3 =
        remove_item (add_item s it t1) it.id t2 := by
  have hwf : keysNodup (hmInsert s.items it.id it) :=
    keysNodup_hmInsert s.items it.id it h
  have hnone : hmGet (hmRemove (hmInsert s.items it.id it) it.id) it.id = none :=
    hmGet_remove_self _ _ hwf
  have hg : get_item (remove_item (add_item s it t1) it.id t2) it.id = none := by
    simp [get_item, add_item, remove_item, hmGet_insert_self, hnone]
  refine ⟨hg, ?_⟩
  have hg' : hmGet (remove_item (add_item s it t1) it.id t2).items it.id = none := hg
  rw [remove_item, hg']
  simp

/-- Witness for C4: add then remove id 1 starting from the empty store. -/
theorem claim_C4_witness :
    ItemsWF SupermarketManager.new ∧
      (get_item (remove_item (add_item SupermarketManager.new mItem "T1")
          mItem.id "T2") mItem.id = none ∧
        remove_item (remove_item (add_item SupermarketManager.new mItem "T1")
            mItem.id "T2") mItem.id "T3" =
          remove_item (add_item SupermarketManager.new mItem "T1") mItem.id "T2") :=
  ⟨by decide, claim_C4 SupermarketManager.new mItem "T1" "T2" "T3" (by decide)⟩

/-- C5 counterexample: `update_item_quantity` on an id that was never added
appends no log entry, so "every mutating operation appends exactly one log
entry, for every input and every starting state" fails on the empty store. -/
theorem claim_C5_cex :
    ¬ (update_item_quantity SupermarketManager.new 999 5 "T").logs.length =
        SupermarketManager.new.logs.length + 1 := by decide

/-- C5 (amended): `add_item` always appends exactly one log entry;
`update_item_quantity` and `remove_item` append exactly one when the target
id is present and zero otherwise. -/
theorem claim_C5_amended (s : SupermarketManager) (it : InventoryItem)
    (i q : Nat) (now : String) :
    (add_item s it now).logs.length = s.logs.length + 1 ∧
      (update_item_quantity s i q now).logs.length =
        s.logs.length + (if (get_item s i).isSome then 1 else 0) ∧
      (remove_item s i now).logs.length =
        s.logs.length + (if (get_item s i).isSome then 1 else 0) := by
  refine ⟨by simp [add_item], ?_, ?_⟩ <;>
    by_cases h : (hmGet s.items i).isSome <;>
      simp [update_item_quantity, remove_item, get_item, h]

/-- C6: from the empty store, add(1), update(1, q), remove(1) produce
exactly three log lines, in that order, each naming id 1; and a second
`get_logs` call on the state left by a first call returns the same
content. -/
theorem claim_C6 (nm : String) (q0 pr ex q : Nat) (t1 t2 t3 : String) :
    get_logs (remove_item (update_item_quantity
        (add_item SupermarketManager.new ⟨1, nm, q0, pr, ex⟩ t1) 1 q t2) 1 t3) =
      ["Item 1 added at " ++ t1,
        "Item 1 quantity updated to " ++ toString q ++ " at " ++ t2,
        "Item 1 removed at " ++ t3] ∧
      (get_logs_call ((get_logs_call (remove_item (update_item_quantity
          (add_item SupermarketManager.new ⟨1, nm, q0, pr, ex⟩ t1) 1 q t2) 1 t3)).2)).1 =
        (get_logs_call (remove_item (update_item_quantity
          (add_item SupermarketManager.new ⟨1, nm, q0, pr, ex⟩ t1) 1 q t2) 1 t3)).1 := by
  refine ⟨?_, rfl⟩
  simp only [SupermarketManager.new, add_item, update_item_quantity, remove_item,
    get_logs, hmInsert, hmGet, hmModify, hmRemove]
  norm_num
  exact ⟨rfl, rfl, rfl⟩

/-- C7: when a record is present at `i`, updating the quantity stores the
same record with only `quantity` changed, and appends the documented
update log line. -/
theorem claim_C7 (s : SupermarketManager) (i q : Nat) (now : String)
    (it : InventoryItem) (hget : get_item s i = some it) :
    get_item (update_item_quantity s i q now) i = some { it with quantity := q } ∧
      get_logs (update_item_quantity s i q now) =
        get_logs s ++
          ["Item " ++ toString i ++ " quantity updated to " ++ toString q
            ++ " at " ++ now] := by
  have hg : hmGet s.items i = some it := hget
  constructor
  · show hmGet (update_item_quantity s i q now).items i = _
    simp only [update_item_quantity, hg, Option.isSome_some, if_true]
    exact hmGet_modify_self s.items i _ it hg
  · simp [update_item_quantity, get_logs, hg]

/-- Witness for C7 at the sample store. -/
theorem claim_C7_witness :
    get_item s_milk 1 = some mItem ∧
      (get_item (update_item_quantity s_milk 1 7 "T2") 1 =
          some { mItem with quantity := 7 } ∧
        get_logs (update_item_quantity s_milk 1 7 "T2") =
          get_logs s_milk ++
            ["Item " ++ toString 1 ++ " quantity updated to " ++ toString 7
              ++ " at " ++ "T2"]) :=
  ⟨by decide, claim_C7 s_milk 1 7 "T2" mItem (by decide)⟩

/-- C8: setting the quantity of a present record to zero keeps the record
in the store with quantity 0 — no implicit removal. -/
theorem claim_C8 (s : SupermarketManager) (i : Nat) (now : String)
    (it : InventoryItem) (hget : get_item s i = some it) :
    get_item (update_item_quantity s i 0 now) i = some { it with quantity := 0 } ∧
      (get_item (update_item_quantity s i 0 now) i).isSome := by
  have hg : hmGet s.items i = some it := hget
  have h1 : get_item (update_item_quantity s i 0 now) i =
      some { it with quantity := 0 } := by
    show hmGet (update_item_quantity s i 0 now).items i = _
    simp only [update_item_quantity, hg, Option.isSome_some, if_true]
    exact hmGet_modify_self s.items i _ it hg
  exact ⟨h1, by simp [h1]⟩

/-- Witness for C8 at the sample store. -/
theorem claim_C8_witness :
    get_item s_milk 1 = some mItem ∧
      (get_item (update_item_quantity s_milk 1 0 "T2") 1 =
          some { mItem with quantity := 0 } ∧
        (get_item (update_item_quantity s_milk 1 0 "T2") 1).isSome) :=
  ⟨by decide, claim_C8 s_milk 1 "T2" mItem (by decide)⟩

/-- C9: `get_item` and `get_logs` leave the state exactly as it was, and
`get_logs` returns the whole log, in order, unfiltered. -/
theorem claim_C9 (s : SupermarketManager) (i : Nat) :
    (get_item_call s i).2 = s ∧ (get_logs_call s).2 = s ∧
      (get_logs_call s).1 = s.logs ∧ get_logs s = s.logs :=
  ⟨rfl, rfl, rfl, rfl⟩

/-- C10: mutating id `i` never touches the record at a different id `j`,
every mutator only ever appends to the log (the old log is a prefix), and
the two reads leave the log alone. -/
theorem claim_C10 (s : SupermarketManager) (it : InventoryItem) (i j q : Nat)
    (t : String) (hadd : it.id ≠ j) (hij : i ≠ j) :
    get_item (add_item s it t) j = get_item s j ∧
      get_item (update_item_quantity s i q t) j = get_item s j ∧
      get_item (remove_item s i t) j = get_item s j ∧
      (∃ l, (add_item s it t).logs = s.logs ++ l) ∧
      (∃ l, (update_item_quantity s i q t).logs = s.logs ++ l) ∧
      (∃ l, (remove_item s i t).logs = s.logs ++ l) ∧
      ((get_item_call s i).2).logs = s.logs ∧
      ((get_logs_call s).2).logs = s.logs := by
  refine ⟨?_, ?_, ?_, ⟨_, rfl⟩, ?_, ?_, rfl, rfl⟩
  · show hmGet (hmInsert s.items it.id it) j = hmGet s.items j
    exact hmGet_insert_ne s.items it.id j it hadd
  · by_cases h : (hmGet s.items i).isSome
    · show hmGet (update_item_quantity s i q t).items j = hmGet s.items j
      simp only [update_item_quantity, h, if_true]
      exact hmGet_modify_ne s.items i j _ hij
    · simp [get_item, update_item_quantity, h]
  · by_cases h : (hmGet s.items i).isSome
    · show hmGet (remove_item s i t).items j = hmGet s.items j
      simp only [remove_item, h, if_true]
      exact hmGet_remove_ne s.items i j hij
    · simp [get_item, remove_item, h]
  · by_cases h : (hmGet s.items i).isSome <;>
      simp [update_item_quantity, h]
  · by_cases h : (hmGet s.items i).isSome <;>
      simp [remove_item, h]

/-- Witness for C10 at the sample store with i = 1, j = 2. -/
theorem claim_C10_witness :
    (bItem.id ≠ 2 ∧ (1 : Nat) ≠ 2) ∧
      (get_item (add_item s_milk bItem "T2") 2 = get_item s_milk 2 ∧
        get_item (update_item_quantity s_milk 1 7 "T2") 2 = get_item s_milk 2 ∧
        get_item (remove_item s_milk 1 "T2") 2 = get_item s_milk 2 ∧
        (∃ l, (add_item s_milk bItem "T2").logs = s_milk.logs ++ l) ∧
        (∃ l, (update_item_quantity s_milk 1 7 "T2").logs = s_milk.logs ++ l) ∧
        (∃ l, (remove_item s_milk 1 "T2").logs = s_milk.logs ++ l) ∧
        ((get_item_call s_milk 1).2).logs = s_milk.logs ∧
        ((get_logs_call s_milk).2).logs = s_milk.logs) :=
  ⟨⟨by decide, by decide⟩,
    claim_C10 s_milk bItem 1 2 7 "T2" (by decide) (by decide)⟩
